import Mathlib

/-!
Shallow embedding of the DNS wire-format codec of this repository
(src/src/dns/*.rs) and proofs about it.

Bytes are modelled as `Nat` values below 256, byte buffers as `List Nat`,
Rust `u16`/`u32` values as `Nat` with explicit bounds, Rust `String` values
as lists of Unicode code points (`List Nat`), and fallible constructors as
`Option`-valued functions.
-/

set_option maxRecDepth 100000

namespace Dns

/-- Model of `u16::to_be_bytes`: big-endian byte pair of a 16-bit value. -/
def be2 (x : Nat) : List Nat := [x / 256 % 256, x % 256]

/-- Model of `u32::to_be_bytes`: big-endian byte quadruple of a 32-bit value. -/
def be4 (x : Nat) : List Nat :=
  [x / 16777216 % 256, x / 65536 % 256, x / 256 % 256, x % 256]

/-- Model of `u16::from_be_bytes([a, b])`. -/
def fromBE2 (a b : Nat) : Nat := a * 256 + b

/-- Model of `u32::from_be_bytes([a, b, c, d])`. -/
def fromBE4 (a b c d : Nat) : Nat := a * 16777216 + b * 65536 + c * 256 + d

/-- Query/Response indicator (src/src/dns/header.rs, `enum QRIndicator`). -/
inductive QRIndicator where
  | Question
  | Reply
deriving DecidableEq, Fintype

/-- Rust `impl From<u8> for QRIndicator`: 0 is `Question`, anything else `Reply`. -/
def qrFromByte (b : Nat) : QRIndicator :=
  if b = 0 then .Question else .Reply

/-- Discriminant of `QRIndicator` (`as u8`). -/
def qrToNat : QRIndicator → Nat
  | .Question => 0
  | .Reply => 1

/-- DNS response codes (src/src/dns/header.rs, `enum ResponseCode`). -/
inductive ResponseCode where
  | NoError
  | FormatError
  | ServerFailure
  | NameError
  | NotImplemented
  | Refused
deriving DecidableEq, Fintype

/-- Rust `impl From<u8> for ResponseCode`: 0, 2, 3, 4, 5 map to their named
variants and every other byte maps to `FormatError`. -/
def responseCodeFromByte (b : Nat) : ResponseCode :=
  if b = 0 then .NoError
  else if b = 2 then .ServerFailure
  else if b = 3 then .NameError
  else if b = 4 then .NotImplemented
  else if b = 5 then .Refused
  else .FormatError

/-- Discriminant of `ResponseCode` (`as u8`). -/
def responseCodeToNat : ResponseCode → Nat
  | .NoError => 0
  | .FormatError => 1
  | .ServerFailure => 2
  | .NameError => 3
  | .NotImplemented => 4
  | .Refused => 5

/-- DNS packet header (src/src/dns/header.rs, `struct DnsHeader`). -/
structure DnsHeader where
  packet_identifier : Nat
  query_response_indicator : QRIndicator
  operation_code : Nat
  authoritative_answer : Bool
  truncation : Bool
  recursion_desired : Bool
  recursion_available : Bool
  reserved : Nat
  response_code : ResponseCode
  question_count : Nat
  answer_record_count : Nat
  authority_record_count : Nat
  additional_record_count : Nat
deriving DecidableEq

/-- Decoding of a 12-byte buffer, `impl From<&[u8; 12]> for DnsHeader`. -/
def dnsHeaderFromBytes (b0 b1 b2 b3 b4 b5 b6 b7 b8 b9 b10 b11 : Nat) : DnsHeader where
  packet_identifier := fromBE2 b0 b1
  query_response_indicator := qrFromByte (b2 &&& 128)
  operation_code := (b2 &&& 120) >>> 3
  authoritative_answer := (b2 &&& 4) != 0
  truncation := (b2 &&& 2) != 0
  recursion_desired := (b2 &&& 1) != 0
  recursion_available := (b3 &&& 128) != 0
  reserved := (b3 &&& 112) >>> 4
  response_code := responseCodeFromByte (b3 &&& 15)
  question_count := fromBE2 b4 b5
  answer_record_count := fromBE2 b6 b7
  authority_record_count := fromBE2 b8 b9
  additional_record_count := fromBE2 b10 b11

/-- First flag byte: QR(1) | Opcode(4) | AA(1) | TC(1) | RD(1); the `u8`
shifts wrap modulo 256. -/
def flagsByte1 (qr op : Nat) (aa tc rd : Bool) : Nat :=
  ((qr <<< 7) % 256) ||| ((op <<< 3) % 256) ||| (aa.toNat <<< 2) |||
    (tc.toNat <<< 1) ||| rd.toNat

/-- Second flag byte: RA(1) | Z(3) | RCODE(4). -/
def flagsByte2 (ra : Bool) (res rc : Nat) : Nat :=
  (ra.toNat <<< 7) ||| ((res <<< 4) % 256) ||| rc

/-- Model of `DnsHeader::get_flags_bytes`. -/
def getFlagsBytes (h : DnsHeader) : List Nat :=
  [flagsByte1 (qrToNat h.query_response_indicator) h.operation_code
      h.authoritative_answer h.truncation h.recursion_desired,
   flagsByte2 h.recursion_available h.reserved (responseCodeToNat h.response_code)]

/-- Model of `impl From<&DnsHeader> for [u8; 12]` (`DnsHeader::to_bytes`). -/
def dnsHeaderToBytes (h : DnsHeader) : List Nat :=
  be2 h.packet_identifier ++ getFlagsBytes h ++ be2 h.question_count ++
    be2 h.answer_record_count ++ be2 h.authority_record_count ++
    be2 h.additional_record_count

/-- Model of `DnsHeader::new`: take the first 12 bytes of the slice, failing
when fewer are available. -/
def dnsHeaderNew (p : List Nat) : Option DnsHeader :=
  if 12 ≤ p.length then
    some (dnsHeaderFromBytes (p.getD 0 0) (p.getD 1 0) (p.getD 2 0) (p.getD 3 0)
      (p.getD 4 0) (p.getD 5 0) (p.getD 6 0) (p.getD 7 0) (p.getD 8 0)
      (p.getD 9 0) (p.getD 10 0) (p.getD 11 0))
  else none

/-- Well-formedness of a header value: every numeric field fits its wire field. -/
def HeaderWF (h : DnsHeader) : Prop :=
  h.packet_identifier < 65536 ∧ h.operation_code < 16 ∧ h.reserved < 8 ∧
    h.question_count < 65536 ∧ h.answer_record_count < 65536 ∧
    h.authority_record_count < 65536 ∧ h.additional_record_count < 65536

lemma flagsByte1_decode :
    ∀ b < 256, flagsByte1 (qrToNat (qrFromByte (b &&& 128))) ((b &&& 120) >>> 3)
      ((b &&& 4) != 0) ((b &&& 2) != 0) ((b &&& 1) != 0) = b := by
  decide

lemma flagsByte2_decode_lo :
    ∀ b < 256, b % 16 < 6 →
      flagsByte2 ((b &&& 128) != 0) ((b &&& 112) >>> 4)
        (responseCodeToNat (responseCodeFromByte (b &&& 15))) = b := by
  decide

lemma flagsByte2_decode_hi :
    ∀ b < 256, 6 ≤ b % 16 →
      flagsByte2 ((b &&& 128) != 0) ((b &&& 112) >>> 4)
        (responseCodeToNat (responseCodeFromByte (b &&& 15))) = b / 16 * 16 + 1 := by
  decide

lemma responseCode_canon_hi :
    ∀ b < 256, 6 ≤ b % 16 → responseCodeFromByte (b &&& 15) = .FormatError := by
  decide

lemma flagsByte1_proj :
    ∀ q < 2, ∀ op < 16, ∀ aa tc rd : Bool,
      flagsByte1 q op aa tc rd &&& 128 = q * 128 ∧
      (flagsByte1 q op aa tc rd &&& 120) >>> 3 = op ∧
      ((flagsByte1 q op aa tc rd &&& 4) != 0) = aa ∧
      ((flagsByte1 q op aa tc rd &&& 2) != 0) = tc ∧
      ((flagsByte1 q op aa tc rd &&& 1) != 0) = rd := by
  decide

lemma flagsByte2_proj :
    ∀ ra : Bool, ∀ res < 8, ∀ rc < 6,
      ((flagsByte2 ra res rc &&& 128) != 0) = ra ∧
      (flagsByte2 ra res rc &&& 112) >>> 4 = res ∧
      flagsByte2 ra res rc &&& 15 = rc := by
  decide

lemma qrToNat_lt : ∀ q : QRIndicator, qrToNat q < 2 := by decide

lemma qr_roundtrip : ∀ q : QRIndicator, qrFromByte (qrToNat q * 128) = q := by decide

lemma responseCodeToNat_lt : ∀ c : ResponseCode, responseCodeToNat c < 6 := by decide

lemma responseCode_roundtrip :
    ∀ c : ResponseCode, responseCodeFromByte (responseCodeToNat c) = c := by decide

lemma flagsByte1_lt : ∀ q < 2, ∀ op < 16, ∀ aa tc rd : Bool,
    flagsByte1 q op aa tc rd < 256 := by decide

lemma flagsByte2_lt : ∀ ra : Bool, ∀ res < 8, ∀ rc < 6,
    flagsByte2 ra res rc < 256 := by decide

/-- C1: decoding any 12-byte buffer with `DnsHeader::from` and re-serializing
with `to_bytes` reproduces the buffer exactly when the low nibble of byte 3
(the response code) is at most 5; when that nibble is in 6..=15 the decode
canonicalizes it to `FormatError`, so re-serialization yields the same bytes
with the nibble replaced by 1; and serialization followed by decoding is the
identity on every well-formed header, so the lossiness occurs only in the
decode direction. -/
theorem dns_header_roundtrip
    (b0 b1 b2 b3 b4 b5 b6 b7 b8 b9 b10 b11 : Nat)
    (h0 : b0 < 256) (h1 : b1 < 256) (h2 : b2 < 256) (h3 : b3 < 256)
    (h4 : b4 < 256) (h5 : b5 < 256) (h6 : b6 < 256) (h7 : b7 < 256)
    (h8 : b8 < 256) (h9 : b9 < 256) (h10 : b10 < 256) (h11 : b11 < 256)
    (hd : DnsHeader) (hwf : HeaderWF hd) :
    (b3 % 16 < 6 →
      dnsHeaderToBytes (dnsHeaderFromBytes b0 b1 b2 b3 b4 b5 b6 b7 b8 b9 b10 b11) =
        [b0, b1, b2, b3, b4, b5, b6, b7, b8, b9, b10, b11]) ∧
    (6 ≤ b3 % 16 →
      dnsHeaderToBytes (dnsHeaderFromBytes b0 b1 b2 b3 b4 b5 b6 b7 b8 b9 b10 b11) =
        [b0, b1, b2, b3 / 16 * 16 + 1, b4, b5, b6, b7, b8, b9, b10, b11] ∧
      (dnsHeaderFromBytes b0 b1 b2 b3 b4 b5 b6 b7 b8 b9 b10 b11).response_code =
        .FormatError) ∧
    dnsHeaderNew (dnsHeaderToBytes hd) = some hd := by
  obtain ⟨w0, w1, w2, w3, w4, w5, w6⟩ := hwf
  refine ⟨?_, ?_, ?_⟩
  · intro hlo
    simp only [dnsHeaderToBytes, dnsHeaderFromBytes, getFlagsBytes, be2, fromBE2,
      List.cons_append, List.nil_append, List.cons.injEq, and_true]
    refine ⟨by omega, by omega, ?_, ?_, by omega, by omega, by omega, by omega,
      by omega, by omega, by omega, by omega⟩
    · exact flagsByte1_decode b2 h2
    · exact flagsByte2_decode_lo b3 h3 hlo
  · intro hhi
    constructor
    · simp only [dnsHeaderToBytes, dnsHeaderFromBytes, getFlagsBytes, be2, fromBE2,
        List.cons_append, List.nil_append, List.cons.injEq, and_true]
      refine ⟨by omega, by omega, ?_, ?_, by omega, by omega, by omega, by omega,
        by omega, by omega, by omega, by omega⟩
      · exact flagsByte1_decode b2 h2
      · exact flagsByte2_decode_hi b3 h3 hhi
    · simp only [dnsHeaderFromBytes]
      exact responseCode_canon_hi b3 h3 hhi
  · obtain ⟨pid, qr, op, aa, tc, rd, ra, res, rc, qc, ac, nc, xc⟩ := hd
    simp only [DnsHeader.packet_identifier, DnsHeader.operation_code,
      DnsHeader.reserved, DnsHeader.question_count, DnsHeader.answer_record_count,
      DnsHeader.authority_record_count, DnsHeader.additional_record_count] at w0 w1 w2 w3 w4 w5 w6
    have hb1 : flagsByte1 (qrToNat qr) op aa tc rd < 256 :=
      flagsByte1_lt (qrToNat qr) (qrToNat_lt qr) op w1 aa tc rd
    have hb2 : flagsByte2 ra res (responseCodeToNat rc) < 256 :=
      flagsByte2_lt ra res w2 (responseCodeToNat rc) (responseCodeToNat_lt rc)
    obtain ⟨p1a, p1b, p1c, p1d, p1e⟩ :=
      flagsByte1_proj (qrToNat qr) (qrToNat_lt qr) op w1 aa tc rd
    obtain ⟨p2a, p2b, p2c⟩ :=
      flagsByte2_proj ra res w2 (responseCodeToNat rc) (responseCodeToNat_lt rc)
    simp only [dnsHeaderToBytes, getFlagsBytes, be2, List.cons_append,
      List.nil_append, dnsHeaderNew, List.length_cons, List.length_nil, List.getD,
      List.get?, Option.getD_some, dnsHeaderFromBytes, fromBE2]
    rw [if_pos (by omega)]
    simp only [Option.some.injEq, DnsHeader.mk.injEq]
    refine ⟨by omega, ?_, ?_, ?_, ?_, ?_, ?_, ?_, ?_, by omega, by omega, by omega, by omega⟩
    · rw [p1a]
      exact qr_roundtrip qr
    · exact p1b
    · exact p1c
    · exact p1d
    · exact p1e
    · exact p2a
    · exact p2b
    · rw [p2c]
      exact responseCode_roundtrip rc

/-- Witness for C1 on the spec's header example bytes and on a concrete
well-formed header. -/
theorem dns_header_roundtrip_witness :
    dnsHeaderToBytes (dnsHeaderFromBytes 18 52 1 0 0 1 0 1 0 0 0 0) =
      [18, 52, 1, 0, 0, 1, 0, 1, 0, 0, 0, 0] ∧
    dnsHeaderNew (dnsHeaderToBytes
        ⟨1234, .Reply, 0, false, false, false, false, 0, .ServerFailure, 0, 0, 0, 0⟩) =
      some ⟨1234, .Reply, 0, false, false, false, false, 0, .ServerFailure, 0, 0, 0, 0⟩ := by
  have h := dns_header_roundtrip 18 52 1 0 0 1 0 1 0 0 0 0
    (by decide) (by decide) (by decide) (by decide) (by decide) (by decide)
    (by decide) (by decide) (by decide) (by decide) (by decide) (by decide)
    ⟨1234, .Reply, 0, false, false, false, false, 0, .ServerFailure, 0, 0, 0, 0⟩
    (by unfold HeaderWF; decide)
  exact ⟨h.1 (by decide), h.2.2⟩

/-- Byte length of a Rust `char` coming from `char::from(u8)` once pushed into
a `String`: code points below 128 occupy one UTF-8 byte, 128..=255 occupy two. -/
def utf8CharLen (c : Nat) : Nat := if c < 128 then 1 else 2

/-- Model of Rust `String::len` (UTF-8 byte count) for a string whose chars
are the code points in the list. -/
def strLen (s : List Nat) : Nat := (s.map utf8CharLen).sum

/-- UTF-8 bytes of a code point in 0..=255. -/
def utf8CharBytes (c : Nat) : List Nat :=
  if c < 128 then [c] else [192 ||| (c >>> 6), 128 ||| (c &&& 63)]

/-- Domain name (src/src/dns/domain_name.rs, `struct DomainName`): the wire
bytes plus the label strings as lists of code points. -/
structure DomainName where
  wire_format : List Nat
  label_segments : List (List Nat)
deriving DecidableEq

/-- Loop of `DomainName::new` in src/src/dns/domain_name.rs: every visited
byte is pushed onto `wire_format`; a zero byte in length position breaks; a
label is complete when the accumulated string's UTF-8 length equals the
declared length. Returns the final `(wire_format, label_segments,
current_label_length)`. -/
def dnGo : List Nat → List Nat → List (List Nat) → Option Nat → List Nat →
    List Nat × List (List Nat) × Option Nat
  | [], wire, labels, cll, _ => (wire, labels, cll)
  | b :: rest, wire, labels, none, cur =>
    if b = 0 then (wire ++ [b], labels, none)
    else dnGo rest (wire ++ [b]) labels (some b) cur
  | b :: rest, wire, labels, some n, cur =>
    if strLen (cur ++ [b]) = n then
      dnGo rest (wire ++ [b]) (labels ++ [cur ++ [b]]) none []
    else dnGo rest (wire ++ [b]) labels (some n) (cur ++ [b])

/-- Model of `DomainName::new` in src/src/dns/domain_name.rs. -/
def domainNameNew (packet : List Nat) : Option DomainName :=
  if packet.isEmpty then none
  else
    match dnGo packet [] [] none [] with
    | (wire, labels, none) =>
      if wire.getLast? = some 0 then some ⟨wire, labels⟩ else none
    | (_, _, some _) => none

/-- Loop of the duplicated `DomainName::new` in src/src/dns/question.rs: it
differs from src/src/dns/domain_name.rs in that label content bytes are
pushed only onto the current label, never onto `wire_format`. -/
def qdnGo : List Nat → List Nat → List (List Nat) → Option Nat → List Nat →
    List Nat × List (List Nat) × Option Nat
  | [], wire, labels, cll, _ => (wire, labels, cll)
  | b :: rest, wire, labels, none, cur =>
    if b = 0 then (wire ++ [b], labels, none)
    else qdnGo rest (wire ++ [b]) labels (some b) cur
  | b :: rest, wire, labels, some n, cur =>
    if strLen (cur ++ [b]) = n then
      qdnGo rest wire (labels ++ [cur ++ [b]]) none []
    else qdnGo rest wire labels (some n) (cur ++ [b])

/-- Model of the duplicated `DomainName::new` in src/src/dns/question.rs. -/
def questionDomainNameNew (packet : List Nat) : Option DomainName :=
  if packet.isEmpty then none
  else
    match qdnGo packet [] [] none [] with
    | (wire, labels, none) =>
      if wire.getLast? = some 0 then some ⟨wire, labels⟩ else none
    | (_, _, some _) => none

/-- Length-prefixed encoding of label segments terminated by a zero-length
label: each label's length byte followed by its UTF-8 bytes, then a zero
byte (the re-encoding named by the spec's `DomainName` invariant). -/
def encodeLabels (ls : List (List Nat)) : List Nat :=
  (ls.map fun l => strLen l :: (l.map utf8CharBytes).flatten).flatten ++ [0]

/-- DNS record types (src/src/dns/record_type.rs, `enum RecordType`). -/
inductive RecordType where
  | A | NS | MD | MF | CNAME | SOA | MB | MG | MR | NULL | WKS | PTR
  | HINFO | MINFO | MX | TXT
deriving DecidableEq, Fintype

/-- Model of `impl TryFrom<u16> for RecordType`: wire values 1..=16. -/
def recordTypeTryFrom (v : Nat) : Option RecordType :=
  if v = 1 then some .A
  else if v = 2 then some .NS
  else if v = 3 then some .MD
  else if v = 4 then some .MF
  else if v = 5 then some .CNAME
  else if v = 6 then some .SOA
  else if v = 7 then some .MB
  else if v = 8 then some .MG
  else if v = 9 then some .MR
  else if v = 10 then some .NULL
  else if v = 11 then some .WKS
  else if v = 12 then some .PTR
  else if v = 13 then some .HINFO
  else if v = 14 then some .MINFO
  else if v = 15 then some .MX
  else if v = 16 then some .TXT
  else none

/-- Discriminant of `RecordType` (`as u16`). -/
def recordTypeToNat : RecordType → Nat
  | .A => 1 | .NS => 2 | .MD => 3 | .MF => 4 | .CNAME => 5 | .SOA => 6
  | .MB => 7 | .MG => 8 | .MR => 9 | .NULL => 10 | .WKS => 11 | .PTR => 12
  | .HINFO => 13 | .MINFO => 14 | .MX => 15 | .TXT => 16

/-- Model of `RecordType::new`: read two bytes at the offset just past the
domain name. -/
def recordTypeNew (p : List Nat) (L : Nat) : Option RecordType :=
  match p.get? L, p.get? (L + 1) with
  | some a, some b => recordTypeTryFrom (fromBE2 a b)
  | _, _ => none

/-- DNS classes (src/src/dns/class.rs, `enum Class`). -/
inductive Class where
  | IN | CS | CH | HS
deriving DecidableEq, Fintype

/-- Model of `impl TryFrom<u16> for Class`: wire values 1..=4. -/
def classTryFrom (v : Nat) : Option Class :=
  if v = 1 then some .IN
  else if v = 2 then some .CS
  else if v = 3 then some .CH
  else if v = 4 then some .HS
  else none

/-- Discriminant of `Class` (`as u16`). -/
def classToNat : Class → Nat
  | .IN => 1 | .CS => 2 | .CH => 3 | .HS => 4

/-- Model of `Class::new`: read the two bytes at offsets name length + 2 and
name length + 3. -/
def classNew (p : List Nat) (L : Nat) : Option Class :=
  match p.get? (L + 2), p.get? (L + 3) with
  | some a, some b => classTryFrom (fromBE2 a b)
  | _, _ => none

/-- Declared RDLENGTH of an RDATA section: big-endian 16-bit value of its
first two bytes. -/
def rdLenAt (s : List Nat) : Nat := fromBE2 (s.getD 0 0) (s.getD 1 0)

/-- Model of `RData::new` (src/src/dns/answer_record.rs): fails on slices
shorter than 3 bytes, reads the 2-byte RDLENGTH, collects the available
payload bytes (the source's index loop equals `take` of `drop 2`), and
fails unless exactly the declared number of bytes was available. -/
def rdataNew (s : List Nat) : Option (List Nat) :=
  if s.length < 3 then none
  else if ((s.drop 2).take (rdLenAt s)).length = rdLenAt s then
    some ((s.drop 2).take (rdLenAt s))
  else none

/-- DNS answer record (src/src/dns/answer_record.rs, `struct DnsAnswerRecord`);
the Rust field `class` is named `rClass` here because `class` is reserved. -/
structure DnsAnswerRecord where
  domain_name : DomainName
  record_type : RecordType
  rClass : Class
  time_to_live : Nat
  r_data_length : Nat
  r_data : List Nat
deriving DecidableEq

/-- Model of `DnsAnswerRecord::get_ttl_from_packet`: 4 bytes at offsets
name length + 4 .. name length + 8. -/
def getTtlFromPacket (p : List Nat) (L : Nat) : Option Nat :=
  if L + 8 ≤ p.length then
    some (fromBE4 (p.getD (L + 4) 0) (p.getD (L + 5) 0) (p.getD (L + 6) 0)
      (p.getD (L + 7) 0))
  else none

/-- Model of `DnsAnswerRecord::get_r_data_from_packet`: the RDATA section is
everything from offset name length + 8 to the end of the slice. -/
def getRDataFromPacket (p : List Nat) (L : Nat) : Option (List Nat) :=
  if L + 8 ≤ p.length then rdataNew (p.drop (L + 8)) else none

/-- Model of `DnsAnswerRecord::new`: name, type, class, TTL, then RDATA;
the stored `r_data_length` is the length of the decoded payload. -/
def dnsAnswerRecordNew (p : List Nat) : Option DnsAnswerRecord :=
  (domainNameNew p).bind fun d =>
    (recordTypeNew p d.wire_format.length).bind fun t =>
      (classNew p d.wire_format.length).bind fun c =>
        (getTtlFromPacket p d.wire_format.length).bind fun ttl =>
          (getRDataFromPacket p d.wire_format.length).map fun rd =>
            ⟨d, t, c, ttl, rd.length, rd⟩

/-- Model of `DnsAnswerRecord::to_bytes`: name bytes, type, class, TTL,
then the stored `r_data_length` field truncated to `u16`, then the payload. -/
def answerToBytes (r : DnsAnswerRecord) : List Nat :=
  r.domain_name.wire_format ++ be2 (recordTypeToNat r.record_type) ++
    be2 (classToNat r.rClass) ++ be4 r.time_to_live ++
    be2 (r.r_data_length % 65536) ++ r.r_data

/-- Modelled from the spec: the serialization the spec describes for an
answer record, with the RDLENGTH field recomputed from the actual stored
payload length instead of the `r_data_length` field. -/
def answerToBytesSpec (r : DnsAnswerRecord) : List Nat :=
  r.domain_name.wire_format ++ be2 (recordTypeToNat r.record_type) ++
    be2 (classToNat r.rClass) ++ be4 r.time_to_live ++
    be2 (r.r_data.length % 65536) ++ r.r_data

lemma rdataNew_eq_some {s w : List Nat} (h : rdataNew s = some w) :
    w = (s.drop 2).take (rdLenAt s) ∧ w.length = rdLenAt s ∧ 3 ≤ s.length ∧
      rdLenAt s + 2 ≤ s.length := by
  unfold rdataNew at h
  by_cases h3 : s.length < 3
  · rw [if_pos h3] at h
    cases h
  · rw [if_neg h3] at h
    by_cases hlen : ((s.drop 2).take (rdLenAt s)).length = rdLenAt s
    · rw [if_pos hlen] at h
      have hw : w = (s.drop 2).take (rdLenAt s) := (Option.some.inj h).symm
      have hmin : ((s.drop 2).take (rdLenAt s)).length =
          min (rdLenAt s) (s.length - 2) := by
        rw [List.length_take, List.length_drop]
      refine ⟨hw, hw ▸ hlen, by omega, by omega⟩
    · rw [if_neg hlen] at h
      cases h

lemma dnsAnswerRecordNew_spec {p : List Nat} {r : DnsAnswerRecord}
    (h : dnsAnswerRecordNew p = some r) :
    r.r_data_length = r.r_data.length ∧
    r.r_data.length = rdLenAt (p.drop (r.domain_name.wire_format.length + 8)) ∧
    r.domain_name.wire_format.length + 10 + r.r_data.length ≤ p.length ∧
    domainNameNew p = some r.domain_name := by
  unfold dnsAnswerRecordNew at h
  simp only [Option.bind_eq_some, Option.map_eq_some'] at h
  obtain ⟨d, hd, t, ht, c, hc, ttl, httl, rd, hrd, heq⟩ := h
  subst heq
  dsimp only
  by_cases h8 : d.wire_format.length + 8 ≤ p.length
  · rw [getRDataFromPacket, if_pos h8] at hrd
    obtain ⟨hw, hwlen, h3, hle⟩ := rdataNew_eq_some hrd
    rw [List.length_drop] at h3 hle
    exact ⟨rfl, hwlen, by omega, hd⟩
  · rw [getRDataFromPacket, if_neg h8] at hrd
    cases hrd

/-- C6: an RDATA section whose declared RDLENGTH exceeds the bytes that
remain decodes to an error, and a successfully decoded answer record's
payload always has exactly the declared length, with the buffer long enough
to contain it — a truncated RDATA section is never silently shortened. -/
theorem truncated_rdata_fails (s : List Nat) (h : s.length - 2 < rdLenAt s) :
    rdataNew s = none ∧
    ∀ p r, dnsAnswerRecordNew p = some r →
      r.r_data.length = rdLenAt (p.drop (r.domain_name.wire_format.length + 8)) ∧
      r.domain_name.wire_format.length + 10 + r.r_data.length ≤ p.length := by
  constructor
  · unfold rdataNew
    by_cases h3 : s.length < 3
    · rw [if_pos h3]
    · rw [if_neg h3, if_neg (by rw [List.length_take, List.length_drop]; omega)]
  · intro p r hr
    obtain ⟨h1, h2, h3, h4⟩ := dnsAnswerRecordNew_spec hr
    exact ⟨h2, h3⟩

/-- Witness for C6: RDLENGTH 4 followed by a single payload byte fails. -/
theorem truncated_rdata_fails_witness : rdataNew [0, 4, 8] = none :=
  (truncated_rdata_fails [0, 4, 8] (by decide)).1

/-- C7 counterexample: `to_bytes` takes the emitted RDLENGTH from the stored
`r_data_length` field, not from the actual payload length; on a record whose
field (7) diverges from its 1-byte payload the two differ. -/
theorem answer_to_bytes_stale_field_counterexample :
    answerToBytes ⟨⟨[0], []⟩, .A, .IN, 0, 7, [1]⟩ ≠
      answerToBytesSpec ⟨⟨[0], []⟩, .A, .IN, 0, 7, [1]⟩ := by
  decide

/-- C7 (amended): `to_bytes` emits name bytes, 2-byte type, 2-byte class,
4-byte TTL, the 2-byte stored `r_data_length` field (as `u16`), then the
payload; for every record produced by `DnsAnswerRecord::new` the stored
field equals the payload length, so there the emitted RDLENGTH agrees with
the recomputed one, and in general the two serializations agree exactly when
the field matches the payload length. -/
theorem answer_to_bytes_rdlength (p : List Nat) (r : DnsAnswerRecord)
    (h : dnsAnswerRecordNew p = some r) :
    answerToBytes r = answerToBytesSpec r ∧
    ∀ r' : DnsAnswerRecord, r'.r_data_length = r'.r_data.length →
      answerToBytes r' = answerToBytesSpec r' := by
  constructor
  · unfold answerToBytes answerToBytesSpec
    rw [(dnsAnswerRecordNew_spec h).1]
  · intro r' h'
    unfold answerToBytes answerToBytesSpec
    rw [h']

/-- Witness for C7 at a concrete parsed record. -/
theorem answer_to_bytes_rdlength_witness :
    answerToBytes ⟨⟨[0], []⟩, .A, .IN, 60, 4, [1, 2, 3, 4]⟩ =
      answerToBytesSpec ⟨⟨[0], []⟩, .A, .IN, 60, 4, [1, 2, 3, 4]⟩ :=
  (answer_to_bytes_rdlength [0, 0, 1, 0, 1, 0, 0, 0, 60, 0, 4, 1, 2, 3, 4]
    ⟨⟨[0], []⟩, .A, .IN, 60, 4, [1, 2, 3, 4]⟩ (by decide)).1

/-- C10 counterexample: parsing can produce an answer record with an empty
payload. A record whose RDLENGTH field is 0 decodes successfully whenever at
least one byte follows the length field, because the RDATA slice then has
the 3 bytes `RData::new` requires. -/
theorem empty_payload_produced :
    dnsAnswerRecordNew [0, 0, 1, 0, 1, 0, 0, 0, 0, 0, 0, 0] =
      some ⟨⟨[0], []⟩, .A, .IN, 0, 0, []⟩ := by
  decide

/-- C10 (amended): `RData::new` errors on every slice shorter than 3 bytes,
so an answer record whose RDATA section ends at or before 2 bytes past the
RDLENGTH position (in particular a zero RDLENGTH ending exactly at the end
of the buffer) fails to decode; but when further bytes follow a zero
RDLENGTH the decode succeeds with an empty payload, so empty-payload records
can be produced by parsing. -/
theorem short_rdata_slice_fails (s p : List Nat) (d : DomainName)
    (hs : s.length < 3) (hd : domainNameNew p = some d)
    (hp : p.length ≤ d.wire_format.length + 10) :
    rdataNew s = none ∧ dnsAnswerRecordNew p = none := by
  constructor
  · unfold rdataNew
    rw [if_pos hs]
  · have hrd : getRDataFromPacket p d.wire_format.length = none := by
      unfold getRDataFromPacket
      by_cases h8 : d.wire_format.length + 8 ≤ p.length
      · rw [if_pos h8]
        unfold rdataNew
        rw [if_pos (by rw [List.length_drop]; omega)]
      · rw [if_neg h8]
    unfold dnsAnswerRecordNew
    rw [hd, Option.some_bind]
    rcases ht : recordTypeNew p d.wire_format.length with _ | t
    · rfl
    rw [Option.some_bind]
    rcases hc : classNew p d.wire_format.length with _ | c
    · rfl
    rw [Option.some_bind]
    rcases httl : getTtlFromPacket p d.wire_format.length with _ | ttl
    · rfl
    rw [Option.some_bind, hrd]
    rfl

/-- Witness for C10's amended statement. -/
theorem short_rdata_slice_fails_witness :
    rdataNew [8, 8] = none ∧
      dnsAnswerRecordNew [0, 0, 1, 0, 1, 0, 0, 0, 0, 0, 0] = none :=
  short_rdata_slice_fails [8, 8] [0, 0, 1, 0, 1, 0, 0, 0, 0, 0, 0] ⟨[0], []⟩
    (by decide) (by decide) (by decide)

/-- C4: the invariant that re-encoding `label_segments` reproduces
`wire_format` fails on the code. The duplicated `DomainName::new` of
src/src/dns/question.rs never pushes label content bytes onto `wire_format`:
on `[3,102,111,111,0]` (the name "foo") it yields `wire_format = [3,0]`
although the re-encoding of its labels is the full input. The
src/src/dns/domain_name.rs version also violates the invariant on `[1,0]`,
which it accepts with the single label `"\u0000"` whose re-encoding is
`[1,0,0]`, not `[1,0]`. -/
theorem domain_name_wire_format_invariant_bug :
    questionDomainNameNew [3, 102, 111, 111, 0] =
      some ⟨[3, 0], [[102, 111, 111]]⟩ ∧
    encodeLabels [[102, 111, 111]] = [3, 102, 111, 111, 0] ∧
    encodeLabels [[102, 111, 111]] ≠ [3, 0] ∧
    domainNameNew [1, 0] = some ⟨[1, 0], [[0]]⟩ ∧
    encodeLabels [[0]] = [1, 0, 0] ∧
    encodeLabels [[0]] ≠ [1, 0] := by
  decide

/-- C5: `DomainName::new` does not fail exactly on the claimed inputs. The
buffer `[1,0]` ends without a terminating zero-length label (its final 0 is
the content byte of the declared 1-byte label), so the claim requires a
decode failure, yet the code accepts it: the final check only inspects
`current_label_length` and the last pushed byte. Likewise `[2,128,0]` has a
2-byte label that is never followed by a terminator byte in raw-byte terms,
yet the code accepts it because the non-ASCII byte 128 counts as two UTF-8
bytes toward the declared length. Genuinely truncated ASCII inputs and the
empty input do fail. -/
theorem domain_name_terminator_check_bug :
    domainNameNew [1, 0] = some ⟨[1, 0], [[0]]⟩ ∧
    domainNameNew [2, 128, 0] = some ⟨[2, 128, 0], [[128]]⟩ ∧
    domainNameNew [] = none ∧
    domainNameNew [3, 102, 111] = none ∧
    domainNameNew [6, 103, 111, 111, 103, 108, 101, 3, 99, 111, 109] = none := by
  decide

/-- C9: `RecordType::try_from` succeeds exactly on wire values 1..=16 and
`Class::try_from` exactly on 1..=4, each mapping the value to the variant
with that discriminant and failing on every other u16 value, and converting
any variant to its wire value and back returns the same variant. -/
theorem record_type_class_closed_sets (v : Nat) (hv : v < 65536) :
    ((recordTypeTryFrom v).isSome ↔ 1 ≤ v ∧ v ≤ 16) ∧
    (∀ t, recordTypeTryFrom v = some t → recordTypeToNat t = v) ∧
    ((classTryFrom v).isSome ↔ 1 ≤ v ∧ v ≤ 4) ∧
    (∀ c, classTryFrom v = some c → classToNat c = v) ∧
    (∀ t, recordTypeTryFrom (recordTypeToNat t) = some t) ∧
    (∀ c, classTryFrom (classToNat c) = some c) := by
  have hR : ∀ w, 17 ≤ w → recordTypeTryFrom w = none := by
    intro w hw
    unfold recordTypeTryFrom
    iterate 16 rw [if_neg (by omega)]
  have hC : ∀ w, 5 ≤ w → classTryFrom w = none := by
    intro w hw
    unfold classTryFrom
    iterate 4 rw [if_neg (by omega)]
  refine ⟨?_, ?_, ?_, ?_, by decide, by decide⟩
  · by_cases h16 : v ≤ 16
    · interval_cases v <;> decide
    · rw [hR v (by omega)]
      simp only [Option.isSome_none, Bool.false_eq_true, false_iff]
      omega
  · by_cases h16 : v ≤ 16
    · interval_cases v <;> decide
    · rw [hR v (by omega)]
      intro t ht
      cases ht
  · by_cases h4 : v ≤ 4
    · interval_cases v <;> decide
    · rw [hC v (by omega)]
      simp only [Option.isSome_none, Bool.false_eq_true, false_iff]
      omega
  · by_cases h4 : v ≤ 4
    · interval_cases v <;> decide
    · rw [hC v (by omega)]
      intro c hc
      cases hc

/-- DNS question (src/src/dns/question.rs, `struct DnsQuestion`); the Rust
field `class` is named `rClass` here because `class` is reserved. -/
structure DnsQuestion where
  domain_name : DomainName
  record_type : RecordType
  rClass : Class
deriving DecidableEq

/-- Modelled from the spec: decoding one question. `DnsQuestion::new` of the
final revision is not among the sources in compilable form (the question.rs
snapshot pairs a private copy with its broken local `DomainName`), so this
follows section 4.4: decode a `DomainName`, then require exactly 4 more bytes
immediately following for `RecordType` (2 bytes) and `Class` (2 bytes), using
the exported `DomainName::new`, `RecordType::new` and `Class::new`; the
remaining buffer starts after name length + 4 bytes. -/
def parse1Question (buf : List Nat) : Option (DnsQuestion × List Nat) :=
  (domainNameNew buf).bind fun d =>
    (recordTypeNew buf d.wire_format.length).bind fun t =>
      (classNew buf d.wire_format.length).map fun c =>
        (⟨d, t, c⟩, buf.drop (d.wire_format.length + 4))

/-- Modelled from the spec: `DnsQuestion::parse_all_questions` (called by
`DnsMessage::new` but not defined in the sources); section 4.4's `decode_n`
decodes exactly `count` entries sequentially, each consuming from where the
previous left off, aborting all-or-nothing on any failure and returning the
remaining buffer. -/
def parseAllQuestions : List Nat → Nat → Option (List DnsQuestion × List Nat)
  | buf, 0 => some ([], buf)
  | buf, n + 1 =>
    (parse1Question buf).bind fun qr =>
      (parseAllQuestions qr.2 n).map fun qsr => (qr.1 :: qsr.1, qsr.2)

/-- Modelled from the spec: decoding one answer record with its consumed
length. Section 4.5 decodes a record and reports `bytes_consumed`, which for
`DnsAnswerRecord::new` (present in the sources) is name length + 10 bytes of
fixed fields + payload length. -/
def parse1Answer (buf : List Nat) : Option (DnsAnswerRecord × List Nat) :=
  (dnsAnswerRecordNew buf).map fun r =>
    (r, buf.drop (r.domain_name.wire_format.length + 10 + r.r_data.length))

/-- Modelled from the spec: `DnsAnswerRecord::parse_all_answers` (called by
`DnsMessage::new` but not defined in the sources); section 4.5's `decode_n`
mirrors section 4.4's all-or-nothing batch semantics. -/
def parseAllAnswers : List Nat → Nat → Option (List DnsAnswerRecord × List Nat)
  | buf, 0 => some ([], buf)
  | buf, n + 1 =>
    (parse1Answer buf).bind fun ar =>
      (parseAllAnswers ar.2 n).map fun asr => (ar.1 :: asr.1, asr.2)

lemma get?_isSome_lt {l : List Nat} {k : Nat} {a : Nat} (h : l.get? k = some a) :
    k < l.length := by
  by_contra hk
  rw [List.get?_eq_none.mpr (by omega)] at h
  cases h

lemma classNew_le {p : List Nat} {L : Nat} {c : Class}
    (h : classNew p L = some c) : L + 4 ≤ p.length := by
  unfold classNew at h
  rcases ha : p.get? (L + 2) with _ | a <;> rw [ha] at h
  · cases h
  · rcases hb : p.get? (L + 3) with _ | b <;> rw [hb] at h
    · cases h
    · have := get?_isSome_lt hb
      omega

lemma parse1Question_some {buf : List Nat} {q : DnsQuestion} {rest : List Nat}
    (h : parse1Question buf = some (q, rest)) :
    rest = buf.drop (q.domain_name.wire_format.length + 4) ∧
      q.domain_name.wire_format.length + 4 ≤ buf.length := by
  unfold parse1Question at h
  simp only [Option.bind_eq_some, Option.map_eq_some'] at h
  obtain ⟨d, hd, t, ht, c, hc, heq⟩ := h
  obtain ⟨heq1, heq2⟩ := Prod.mk.injEq .. ▸ heq
  subst heq1
  subst heq2
  exact ⟨rfl, classNew_le hc⟩

lemma parse1Question_rest_lt {buf : List Nat} {qr : DnsQuestion × List Nat}
    (h : parse1Question buf = some qr) : qr.2.length < buf.length := by
  obtain ⟨hr, hle⟩ := @parse1Question_some buf qr.1 qr.2 h
  rw [hr, List.length_drop]
  omega

lemma parse1Answer_some {buf : List Nat} {r : DnsAnswerRecord} {rest : List Nat}
    (h : parse1Answer buf = some (r, rest)) :
    rest = buf.drop (r.domain_name.wire_format.length + 10 + r.r_data.length) ∧
      r.domain_name.wire_format.length + 10 + r.r_data.length ≤ buf.length := by
  unfold parse1Answer at h
  simp only [Option.map_eq_some'] at h
  obtain ⟨a, ha, heq⟩ := h
  obtain ⟨heq1, heq2⟩ := Prod.mk.injEq .. ▸ heq
  subst heq1
  subst heq2
  exact ⟨rfl, (dnsAnswerRecordNew_spec ha).2.2.1⟩

lemma parse1Answer_rest_lt {buf : List Nat} {ar : DnsAnswerRecord × List Nat}
    (h : parse1Answer buf = some ar) : ar.2.length < buf.length := by
  obtain ⟨hr, hle⟩ := @parse1Answer_some buf ar.1 ar.2 h
  rw [hr, List.length_drop]
  omega

/-- Number of complete question entries at the head of a buffer: how many
times single-question decoding can be iterated before it fails. -/
def questionsAvail (buf : List Nat) : Nat :=
  match h : parse1Question buf with
  | none => 0
  | some qr => questionsAvail qr.2 + 1
termination_by buf.length
decreasing_by exact parse1Question_rest_lt h

/-- The list of all complete question entries at the head of a buffer. -/
def questionEntries (buf : List Nat) : List DnsQuestion :=
  match h : parse1Question buf with
  | none => []
  | some qr => qr.1 :: questionEntries qr.2
termination_by buf.length
decreasing_by exact parse1Question_rest_lt h

/-- Number of complete answer entries at the head of a buffer. -/
def answersAvail (buf : List Nat) : Nat :=
  match h : parse1Answer buf with
  | none => 0
  | some ar => answersAvail ar.2 + 1
termination_by buf.length
decreasing_by exact parse1Answer_rest_lt h

/-- The list of all complete answer entries at the head of a buffer. -/
def answerEntries (buf : List Nat) : List DnsAnswerRecord :=
  match h : parse1Answer buf with
  | none => []
  | some ar => ar.1 :: answerEntries ar.2
termination_by buf.length
decreasing_by exact parse1Answer_rest_lt h

lemma questionsAvail_none {buf : List Nat} (h : parse1Question buf = none) :
    questionsAvail buf = 0 := by
  unfold questionsAvail
  rw [h]

lemma questionsAvail_some {buf : List Nat} {qr : DnsQuestion × List Nat}
    (h : parse1Question buf = some qr) :
    questionsAvail buf = questionsAvail qr.2 + 1 := by
  conv_lhs => rw [questionsAvail]
  rw [h]

lemma questionEntries_none {buf : List Nat} (h : parse1Question buf = none) :
    questionEntries buf = [] := by
  unfold questionEntries
  rw [h]

lemma questionEntries_some {buf : List Nat} {qr : DnsQuestion × List Nat}
    (h : parse1Question buf = some qr) :
    questionEntries buf = qr.1 :: questionEntries qr.2 := by
  conv_lhs => rw [questionEntries]
  rw [h]

lemma answersAvail_none {buf : List Nat} (h : parse1Answer buf = none) :
    answersAvail buf = 0 := by
  unfold answersAvail
  rw [h]

lemma answersAvail_some {buf : List Nat} {ar : DnsAnswerRecord × List Nat}
    (h : parse1Answer buf = some ar) :
    answersAvail buf = answersAvail ar.2 + 1 := by
  conv_lhs => rw [answersAvail]
  rw [h]

lemma answerEntries_none {buf : List Nat} (h : parse1Answer buf = none) :
    answerEntries buf = [] := by
  unfold answerEntries
  rw [h]

lemma answerEntries_some {buf : List Nat} {ar : DnsAnswerRecord × List Nat}
    (h : parse1Answer buf = some ar) :
    answerEntries buf = ar.1 :: answerEntries ar.2 := by
  conv_lhs => rw [answerEntries]
  rw [h]

/-- Modelled from the spec: `DnsQuestion::to_bytes` (called by
`DnsMessage::to_bytes` and src/src/server.rs but not defined in the
sources); section 4.4: encode = domain-name bytes ++ type (2 bytes) ++
class (2 bytes). -/
def questionToBytes (q : DnsQuestion) : List Nat :=
  q.domain_name.wire_format ++ be2 (recordTypeToNat q.record_type) ++
    be2 (classToNat q.rClass)

/-- Complete DNS message (src/src/dns/dns_message.rs, `struct DnsMessage`). -/
structure DnsMessage where
  header : DnsHeader
  questions : List DnsQuestion
  answers : List DnsAnswerRecord
deriving DecidableEq

/-- Model of `DnsMessage::new`: header from the first 12 bytes, then the
declared number of questions from the rest, then the declared number of
answers from what remains. -/
def dnsMessageNew (p : List Nat) : Option DnsMessage :=
  (dnsHeaderNew p).bind fun h =>
    (parseAllQuestions (p.drop 12) h.question_count).bind fun qsr =>
      (parseAllAnswers qsr.2 h.answer_record_count).map fun asr =>
        ⟨h, qsr.1, asr.1⟩

/-- The fixed synthetic answer record of `DnsMessage::build_reply`: the name
codecrafters.io, type A, class IN, TTL 60, payload 8.8.8.8. -/
def fixedReplyAnswer : DnsAnswerRecord :=
  ⟨⟨[12, 99, 111, 100, 101, 99, 114, 97, 102, 116, 101, 114, 115, 2, 105, 111, 0],
    [[99, 111, 100, 101, 99, 114, 97, 102, 116, 101, 114, 115], [105, 111]]⟩,
   .A, .IN, 60, 4, [8, 8, 8, 8]⟩

/-- Model of `DnsMessage::build_reply`. -/
def buildReply (m : DnsMessage) : DnsMessage where
  header :=
    { packet_identifier := m.header.packet_identifier
      query_response_indicator := .Reply
      operation_code := m.header.operation_code
      authoritative_answer := false
      truncation := false
      recursion_desired := m.header.recursion_desired
      recursion_available := false
      reserved := 0
      response_code :=
        if m.header.operation_code = 0 then .NoError else .NotImplemented
      question_count := m.questions.length
      answer_record_count := 1
      authority_record_count := 0
      additional_record_count := 0 }
  questions := m.questions
  answers := [fixedReplyAnswer]

/-- Model of `DnsMessage::build_error_reply`. -/
def buildErrorReply : DnsMessage :=
  ⟨⟨1234, .Reply, 0, false, false, false, false, 0, .ServerFailure, 0, 0, 0, 0⟩,
   [], []⟩

/-- Bytes of a message before padding: header, then the concatenated encoded
questions, then the concatenated encoded answers. -/
def messageBytes (m : DnsMessage) : List Nat :=
  dnsHeaderToBytes m.header ++ (m.questions.map questionToBytes).flatten ++
    (m.answers.map answerToBytes).flatten

/-- Model of `DnsMessage::to_bytes`: the bytes are copied into a 512-byte
zero buffer with bounds-checked slices, so a total length beyond 512 is an
out-of-bounds slice panic, modelled as `none`. -/
def messageToBytes (m : DnsMessage) : Option (List Nat) :=
  if (messageBytes m).length ≤ 512 then
    some (messageBytes m ++ List.replicate (512 - (messageBytes m).length) 0)
  else none

lemma messageToBytes_isSome {m : DnsMessage} :
    (messageToBytes m).isSome ↔ (messageBytes m).length ≤ 512 := by
  unfold messageToBytes
  split <;> simp_all

lemma parseAllQuestions_isSome (n : Nat) :
    ∀ buf, (parseAllQuestions buf n).isSome ↔ n ≤ questionsAvail buf := by
  induction n with
  | zero =>
    intro buf
    simp [parseAllQuestions]
  | succ n ih =>
    intro buf
    rcases h : parse1Question buf with _ | qr
    · simp only [parseAllQuestions, h, Option.none_bind, Option.isSome_none,
        Bool.false_eq_true, false_iff, questionsAvail_none h]
      omega
    · simp only [parseAllQuestions, h, Option.some_bind]
      have hmap :
          ((parseAllQuestions qr.2 n).map fun qsr => (qr.1 :: qsr.1, qsr.2)).isSome =
            (parseAllQuestions qr.2 n).isSome := by
        cases hx : parseAllQuestions qr.2 n <;> simp [hx]
      rw [hmap, ih qr.2, questionsAvail_some h]
      omega

lemma parseAllAnswers_isSome (n : Nat) :
    ∀ buf, (parseAllAnswers buf n).isSome ↔ n ≤ answersAvail buf := by
  induction n with
  | zero =>
    intro buf
    simp [parseAllAnswers]
  | succ n ih =>
    intro buf
    rcases h : parse1Answer buf with _ | ar
    · simp only [parseAllAnswers, h, Option.none_bind, Option.isSome_none,
        Bool.false_eq_true, false_iff, answersAvail_none h]
      omega
    · simp only [parseAllAnswers, h, Option.some_bind]
      have hmap :
          ((parseAllAnswers ar.2 n).map fun asr => (ar.1 :: asr.1, asr.2)).isSome =
            (parseAllAnswers ar.2 n).isSome := by
        cases hx : parseAllAnswers ar.2 n <;> simp [hx]
      rw [hmap, ih ar.2, answersAvail_some h]
      omega

lemma parseAllQuestions_take (n : Nat) :
    ∀ buf qs rest, parseAllQuestions buf n = some (qs, rest) →
      qs = (questionEntries buf).take n ∧ qs.length = n := by
  induction n with
  | zero =>
    intro buf qs rest h
    simp only [parseAllQuestions, Option.some.injEq, Prod.mk.injEq] at h
    obtain ⟨h1, h2⟩ := h
    subst h1
    exact ⟨by simp, rfl⟩
  | succ n ih =>
    intro buf qs rest h
    simp only [parseAllQuestions] at h
    rcases hq : parse1Question buf with _ | qr <;> rw [hq] at h
    · cases h
    · simp only [Option.some_bind, Option.map_eq_some'] at h
      obtain ⟨qsr, hrec, heq⟩ := h
      obtain ⟨h1, h2⟩ := Prod.mk.injEq .. ▸ heq
      subst h1
      subst h2
      obtain ⟨ht, hl⟩ := ih qr.2 qsr.1 qsr.2 hrec
      rw [questionEntries_some hq, List.take_succ_cons]
      exact ⟨by rw [ht], by simp [hl]⟩

lemma parseAllAnswers_take (n : Nat) :
    ∀ buf rs rest, parseAllAnswers buf n = some (rs, rest) →
      rs = (answerEntries buf).take n ∧ rs.length = n := by
  induction n with
  | zero =>
    intro buf rs rest h
    simp only [parseAllAnswers, Option.some.injEq, Prod.mk.injEq] at h
    obtain ⟨h1, h2⟩ := h
    subst h1
    exact ⟨by simp, rfl⟩
  | succ n ih =>
    intro buf rs rest h
    simp only [parseAllAnswers] at h
    rcases ha : parse1Answer buf with _ | ar <;> rw [ha] at h
    · cases h
    · simp only [Option.some_bind, Option.map_eq_some'] at h
      obtain ⟨asr, hrec, heq⟩ := h
      obtain ⟨h1, h2⟩ := Prod.mk.injEq .. ▸ heq
      subst h1
      subst h2
      obtain ⟨ht, hl⟩ := ih ar.2 asr.1 asr.2 hrec
      rw [answerEntries_some ha, List.take_succ_cons]
      exact ⟨by rw [ht], by simp [hl]⟩

lemma questionToBytes_length (q : DnsQuestion) :
    (questionToBytes q).length = q.domain_name.wire_format.length + 4 := by
  simp [questionToBytes, be2]

lemma answerToBytes_length (r : DnsAnswerRecord) :
    (answerToBytes r).length =
      r.domain_name.wire_format.length + 10 + r.r_data.length := by
  simp only [answerToBytes, be2, be4, List.length_append, List.length_cons,
    List.length_nil]

lemma parseAllQuestions_bytes (n : Nat) :
    ∀ buf qs rest, parseAllQuestions buf n = some (qs, rest) →
      ((qs.map questionToBytes).flatten).length + rest.length = buf.length := by
  induction n with
  | zero =>
    intro buf qs rest h
    simp only [parseAllQuestions, Option.some.injEq, Prod.mk.injEq] at h
    obtain ⟨h1, h2⟩ := h
    subst h1
    subst h2
    simp
  | succ n ih =>
    intro buf qs rest h
    simp only [parseAllQuestions] at h
    rcases hq : parse1Question buf with _ | qr <;> rw [hq] at h
    · cases h
    · simp only [Option.some_bind, Option.map_eq_some'] at h
      obtain ⟨qsr, hrec, heq⟩ := h
      obtain ⟨h1, h2⟩ := Prod.mk.injEq .. ▸ heq
      subst h1
      subst h2
      have hacc := ih qr.2 qsr.1 qsr.2 hrec
      obtain ⟨hr, hle⟩ := @parse1Question_some buf qr.1 qr.2 hq
      have hq2 : qr.2.length =
          buf.length - (qr.1.domain_name.wire_format.length + 4) := by
        rw [hr, List.length_drop]
      simp only [List.map_cons, List.flatten_cons, List.length_append,
        questionToBytes_length]
      omega

lemma parseAllAnswers_bytes (n : Nat) :
    ∀ buf rs rest, parseAllAnswers buf n = some (rs, rest) →
      ((rs.map answerToBytes).flatten).length + rest.length = buf.length := by
  induction n with
  | zero =>
    intro buf rs rest h
    simp only [parseAllAnswers, Option.some.injEq, Prod.mk.injEq] at h
    obtain ⟨h1, h2⟩ := h
    subst h1
    subst h2
    simp
  | succ n ih =>
    intro buf rs rest h
    simp only [parseAllAnswers] at h
    rcases ha : parse1Answer buf with _ | ar <;> rw [ha] at h
    · cases h
    · simp only [Option.some_bind, Option.map_eq_some'] at h
      obtain ⟨asr, hrec, heq⟩ := h
      obtain ⟨h1, h2⟩ := Prod.mk.injEq .. ▸ heq
      subst h1
      subst h2
      have hacc := ih ar.2 asr.1 asr.2 hrec
      obtain ⟨hr, hle⟩ := @parse1Answer_some buf ar.1 ar.2 ha
      have ha2 : ar.2.length = buf.length -
          (ar.1.domain_name.wire_format.length + 10 + ar.1.r_data.length) := by
        rw [hr, List.length_drop]
      simp only [List.map_cons, List.flatten_cons, List.length_append,
        answerToBytes_length]
      omega

lemma dnsHeaderToBytes_length (h : DnsHeader) : (dnsHeaderToBytes h).length = 12 := by
  simp [dnsHeaderToBytes, be2, getFlagsBytes]

/-- All-zero 512-byte packet and the message it decodes to. -/
def zeroPacket : List Nat := List.replicate 512 0

/-- Message decoded from `zeroPacket`: a zero header with no questions and
no answers. -/
def zeroMessage : DnsMessage :=
  ⟨dnsHeaderFromBytes 0 0 0 0 0 0 0 0 0 0 0 0, [], []⟩

/-- A 512-byte packet declaring 100 questions, each the 5-byte minimal
question (root name, type A, class IN), filling the packet exactly. -/
def overflowPacket : List Nat :=
  [0, 0, 0, 0, 0, 100, 0, 0, 0, 0, 0, 0] ++
    (List.replicate 100 ([0, 0, 1, 0, 1] : List Nat)).flatten

/-- C8: batch decoding of questions and answers follows the count contract.
Decoding `n` entries succeeds exactly when the buffer holds at least `n`
complete entries, in which case the result is the first `n` entries in
order, with no partial list on failure; consequently `DnsMessage::new`
succeeds exactly when the buffer holds the header's declared number of
complete questions and, after them, the declared number of complete
answers. -/
theorem count_contract (buf : List Nat) (n : Nat) (p : List Nat)
    (hp : p.length = 512) :
    ((parseAllQuestions buf n).isSome ↔ n ≤ questionsAvail buf) ∧
    ((parseAllAnswers buf n).isSome ↔ n ≤ answersAvail buf) ∧
    (∀ qs rest, parseAllQuestions buf n = some (qs, rest) →
      qs = (questionEntries buf).take n ∧ qs.length = n) ∧
    (∀ rs rest, parseAllAnswers buf n = some (rs, rest) →
      rs = (answerEntries buf).take n ∧ rs.length = n) ∧
    (∀ h, dnsHeaderNew p = some h →
      ((dnsMessageNew p).isSome ↔
        h.question_count ≤ questionsAvail (p.drop 12) ∧
        ∀ qs rest,
          parseAllQuestions (p.drop 12) h.question_count = some (qs, rest) →
            h.answer_record_count ≤ answersAvail rest)) := by
  refine ⟨parseAllQuestions_isSome n buf, parseAllAnswers_isSome n buf,
    parseAllQuestions_take n buf, parseAllAnswers_take n buf, ?_⟩
  intro h hh
  unfold dnsMessageNew
  rw [hh, Option.some_bind]
  constructor
  · intro hs
    rcases hqp : parseAllQuestions (p.drop 12) h.question_count with _ | qsr
    · rw [hqp] at hs
      simp at hs
    · rw [hqp] at hs
      refine ⟨(parseAllQuestions_isSome _ _).mp (by rw [hqp]; rfl), ?_⟩
      intro qs rest heq
      have hqr := Option.some.inj heq
      subst hqr
      simp only [Option.some_bind] at hs
      have hans : (parseAllAnswers rest h.answer_record_count).isSome := by
        rcases hx : parseAllAnswers rest h.answer_record_count with _ | a
        · rw [hx] at hs
          simp at hs
        · rfl
      exact (parseAllAnswers_isSome _ _).mp hans
  · rintro ⟨hq, himp⟩
    have hqs : (parseAllQuestions (p.drop 12) h.question_count).isSome :=
      (parseAllQuestions_isSome _ _).mpr hq
    rcases hqp : parseAllQuestions (p.drop 12) h.question_count with _ | qsr
    · rw [hqp] at hqs
      simp at hqs
    · rw [Option.some_bind]
      have hans : (parseAllAnswers qsr.2 h.answer_record_count).isSome :=
        (parseAllAnswers_isSome _ _).mpr (himp qsr.1 qsr.2 (by rw [hqp]))
      rcases hx : parseAllAnswers qsr.2 h.answer_record_count with _ | a
      · rw [hx] at hans
        simp at hans
      · rfl

/-- Witness for C8: one complete question decodes as a batch of 1 but not
as a batch of 2. -/
theorem count_contract_witness :
    (parseAllQuestions [0, 0, 1, 0, 1] 1).isSome ∧
      ¬ (parseAllQuestions [0, 0, 1, 0, 1] 2).isSome := by
  have ha : questionsAvail [0, 0, 1, 0, 1] = 1 := by
    rw [@questionsAvail_some [0, 0, 1, 0, 1] (⟨⟨[0], []⟩, .A, .IN⟩, []) (by decide),
      questionsAvail_none (by decide)]
  constructor
  · exact ((count_contract [0, 0, 1, 0, 1] 1 (List.replicate 512 0)
      (by simp)).1).mpr (by omega)
  · intro hs
    have h2 := ((count_contract [0, 0, 1, 0, 1] 2 (List.replicate 512 0)
      (by simp)).1).mp hs
    omega

/-- C2 counterexample: a reachable message whose serialization overflows.
`overflowPacket` decodes successfully (100 five-byte questions fill the
512-byte packet exactly), but `build_reply` keeps all 500 bytes of questions
and adds its fixed 31-byte answer, so `to_bytes` would have to write 543
bytes into the 512-byte buffer — an out-of-bounds slice panic. -/
theorem message_to_bytes_overflow :
    (dnsMessageNew overflowPacket).isSome ∧
      (dnsMessageNew overflowPacket).bind
        (fun m => messageToBytes (buildReply m)) = none := by
  decide

/-- C2 (amended): serialization always fits for a message decoded by
`DnsMessage::new` (its questions and answers re-encode to exactly the at
most 500 bytes they were parsed from) and for `build_error_reply`; for
`build_reply` of a decoded message it fits provided the re-encoded questions
occupy at most 469 bytes, the 512-byte budget minus the 12-byte header and
the fixed 31-byte synthetic answer. -/
theorem message_to_bytes_fits (p : List Nat) (m : DnsMessage)
    (hp : p.length = 512) (hm : dnsMessageNew p = some m) :
    (messageToBytes m).isSome ∧
    (messageToBytes buildErrorReply).isSome ∧
    (((m.questions.map questionToBytes).flatten).length ≤ 469 →
      (messageToBytes (buildReply m)).isSome) := by
  unfold dnsMessageNew at hm
  simp only [Option.bind_eq_some, Option.map_eq_some'] at hm
  obtain ⟨h, hh, qsr, hq, asr, hans, heq⟩ := hm
  subst heq
  have h500 : (p.drop 12).length = 500 := by
    rw [List.length_drop, hp]
  have hqb := parseAllQuestions_bytes h.question_count (p.drop 12) qsr.1 qsr.2 hq
  have hab := parseAllAnswers_bytes h.answer_record_count qsr.2 asr.1 asr.2 hans
  refine ⟨?_, by decide, ?_⟩
  · rw [messageToBytes_isSome]
    dsimp only [messageBytes]
    simp only [List.length_append, dnsHeaderToBytes_length]
    omega
  · intro hqlen
    dsimp only at hqlen
    rw [messageToBytes_isSome]
    dsimp only [messageBytes, buildReply]
    simp only [List.length_append, dnsHeaderToBytes_length, List.map_cons,
      List.map_nil, List.flatten_cons, List.flatten_nil, List.append_nil]
    have hfa : (answerToBytes fixedReplyAnswer).length = 31 := by decide
    omega

/-- Witness for C2's amended statement on the all-zero packet. -/
theorem message_to_bytes_fits_witness :
    (messageToBytes zeroMessage).isSome ∧
      (messageToBytes buildErrorReply).isSome ∧
      (messageToBytes (buildReply zeroMessage)).isSome := by
  have h := message_to_bytes_fits zeroPacket zeroMessage (by decide) (by decide)
  exact ⟨h.1, h.2.1, h.2.2 (by decide)⟩

/-- C3: `build_reply` of a decoded message copies the packet identifier,
opcode and RD flag, forces QR=Reply and AA=TC=RA=false, sets the response
code to NoError exactly when the opcode is 0 and NotImplemented otherwise,
keeps the question list unchanged with the question count equal to the
input's number of questions (which equals the input's declared count), and
replaces the answers with exactly one fixed record of type A, class IN,
TTL 60 and a 4-byte payload, independent of the question's content. -/
theorem build_reply_correct (p : List Nat) (m : DnsMessage)
    (hm : dnsMessageNew p = some m) :
    (buildReply m).header.packet_identifier = m.header.packet_identifier ∧
    (buildReply m).header.query_response_indicator = .Reply ∧
    (buildReply m).header.operation_code = m.header.operation_code ∧
    (buildReply m).header.recursion_desired = m.header.recursion_desired ∧
    (buildReply m).header.authoritative_answer = false ∧
    (buildReply m).header.truncation = false ∧
    (buildReply m).header.recursion_available = false ∧
    (m.header.operation_code = 0 →
      (buildReply m).header.response_code = .NoError) ∧
    (m.header.operation_code ≠ 0 →
      (buildReply m).header.response_code = .NotImplemented) ∧
    (buildReply m).header.question_count = m.questions.length ∧
    m.header.question_count = m.questions.length ∧
    (buildReply m).questions = m.questions ∧
    (buildReply m).header.answer_record_count = 1 ∧
    (buildReply m).answers = [fixedReplyAnswer] ∧
    fixedReplyAnswer.record_type = .A ∧
    fixedReplyAnswer.rClass = .IN ∧
    fixedReplyAnswer.time_to_live = 60 ∧
    fixedReplyAnswer.r_data.length = 4 := by
  have hqc : m.header.question_count = m.questions.length := by
    unfold dnsMessageNew at hm
    simp only [Option.bind_eq_some, Option.map_eq_some'] at hm
    obtain ⟨h, hh, qsr, hq, asr, hans, heq⟩ := hm
    subst heq
    dsimp only
    exact ((parseAllQuestions_take _ _ qsr.1 qsr.2 hq).2).symm
  refine ⟨rfl, rfl, rfl, rfl, rfl, rfl, rfl, ?_, ?_, rfl, hqc, rfl, rfl, rfl,
    rfl, rfl, rfl, rfl⟩
  · intro h0
    dsimp only [buildReply]
    rw [if_pos h0]
  · intro h0
    dsimp only [buildReply]
    rw [if_neg h0]

/-- Witness for C3 on the all-zero packet. -/
theorem build_reply_correct_witness :
    (buildReply zeroMessage).header.query_response_indicator =
        QRIndicator.Reply ∧
      (buildReply zeroMessage).header.response_code = ResponseCode.NoError := by
  have h := build_reply_correct zeroPacket zeroMessage (by decide)
  exact ⟨h.2.1, h.2.2.2.2.2.2.2.1 (by decide)⟩

/-- Witness for C9 at the concrete values 16, 17, 4 and 5. -/
theorem record_type_class_closed_sets_witness :
    (recordTypeTryFrom 16).isSome ∧ ¬ (recordTypeTryFrom 17).isSome ∧
    (classTryFrom 4).isSome ∧ ¬ (classTryFrom 5).isSome := by
  refine ⟨?_, ?_, ?_, ?_⟩
  · exact (record_type_class_closed_sets 16 (by decide)).1.mpr (by decide)
  · intro hs
    have h := (record_type_class_closed_sets 17 (by decide)).1.mp hs
    omega
  · exact (record_type_class_closed_sets 4 (by decide)).2.2.1.mpr (by decide)
  · intro hs
    have h := (record_type_class_closed_sets 5 (by decide)).2.2.1.mp hs
    omega

end Dns
